import Mathlib

/-!
Verification of the CV Document Assembly Engine
(`src/backend/services/cv_service.py`, `CVService._build_yaml_structure`).

Python strings are modelled as `List Char`; Python scalar values
(string / int / None) as the `Scalar` sum type; Python dicts whose keys are
program literals as insertion-ordered association lists with dict-update
semantics (`dictInsert`).  Attribute errors raised by the code are modelled
with `Except`.
-/

namespace PureCV

/-- Python strings, modelled as lists of characters. -/
abbrev Str := List Char

/-- The whitespace characters removed by Python `str.strip()`. -/
def isSpaceChar (c : Char) : Bool := c = ' ' || c = '\t' || c = '\n' || c = '\r'

/-- Python `str.strip()`: remove leading and trailing whitespace. -/
def strip (s : Str) : Str :=
  ((s.dropWhile isSpaceChar).reverse.dropWhile isSpaceChar).reverse

/-- Python `str.split(sep)` for a one-character separator:
`"".split(",") = [""]`, `"a,,b".split(",") = ["a","","b"]`. -/
def splitC (c : Char) : Str → List Str
  | [] => [[]]
  | x :: xs =>
    match splitC c xs with
    | [] => [[]]
    | r :: rs => if x = c then [] :: r :: rs else (x :: r) :: rs

/-- A Python scalar value: a string, an int, or `None`. -/
inductive Scalar where
  | s (v : Str)
  | num (v : Int)
  | null
deriving DecidableEq

/-- Python truthiness of a scalar (`bool(x)`). -/
def pyTruthy : Scalar → Bool
  | .s v => !v.isEmpty
  | .num n => n != 0
  | .null => false

/-- Python `x or ""`. -/
def pyOrEmpty (v : Scalar) : Scalar := if pyTruthy v then v else .s []

/-- Python `d.get(key, "")`: a missing field yields the empty string. -/
def getS (o : Option Scalar) : Scalar := o.getD (.s [])

/-- Truthiness of `d.get(key)` (missing field yields `None`, which is falsy). -/
def truthyOpt (o : Option Scalar) : Bool :=
  match o with
  | some v => pyTruthy v
  | none => false

/-- Python `str(x)` on a scalar. -/
def pyStr : Scalar → Str
  | .s v => v
  | .num n => (toString n).toList
  | .null => "None".toList

/-- Python `str(d.get(key, "") or "")`. -/
def pyCoerce (o : Option Scalar) : Str := pyStr (pyOrEmpty (getS o))

/-- Python `str(d.get(key, "") or "").strip()`. -/
def pyCoerceStrip (o : Option Scalar) : Str := strip (pyCoerce o)

/-- Python attribute access `x.strip()`: only strings have `strip`,
every other scalar raises `AttributeError` (source line 140 applies it to
the raw `summary` value). -/
def pyStripAttr : Scalar → Except Str Str
  | .s v => .ok (strip v)
  | _ => .error "AttributeError: strip".toList

/-- `normalize_url` (source lines 94-108): reject empty / comma / space
inputs, prepend `https://` when no scheme is present, require a dot. -/
def normalize_url (url : Str) : Str :=
  if url.isEmpty || (strip url).isEmpty then []
  else
    let url := strip url
    if url.contains ',' || url.contains ' ' then []
    else
      let url :=
        if "http://".toList.isPrefixOf url || "https://".toList.isPrefixOf url then url
        else "https://".toList ++ url
      if url.contains '.' then url else []

/-- A value stored in an output entry: a string, a raw scalar copied
verbatim from the input, or a list of strings. -/
inductive YVal where
  | str (v : Str)
  | raw (v : Scalar)
  | strList (vs : List Str)
deriving DecidableEq

/-- An output entry: a Python dict with string keys, modelled as an
insertion-ordered association list. -/
abbrev Entry := List (String × YVal)

/-- Python dict assignment `d[k] = v` on an association list whose keys are
unique: overwrite the value in place if the key is present, otherwise
append, preserving insertion order. -/
def dictInsert {α : Type} (d : List (String × α)) (k : String) (v : α) :
    List (String × α) :=
  match d with
  | [] => [(k, v)]
  | p :: rest => if p.1 == k then (k, v) :: rest else p :: dictInsert rest k v

/-- Python dict lookup `d.get(k)` on an association list. -/
def lookupKV {α : Type} (d : List (String × α)) (k : String) : Option α :=
  (d.find? (fun p => p.1 == k)).map (fun p => p.2)

/-- A raw experience entry (the fields read by source lines 144-168). -/
structure RawExperience where
  company : Option Scalar
  position : Option Scalar
  start_date : Option Scalar
  end_date : Option Scalar
  location : Option Scalar
  summary : Option Scalar
  highlights : List Str
deriving DecidableEq

/-- A raw education entry (source lines 173-196). -/
structure RawEducation where
  institution : Option Scalar
  area : Option Scalar
  degree : Option Scalar
  start_date : Option Scalar
  end_date : Option Scalar
  location : Option Scalar
  summary : Option Scalar
  highlights : List Str
deriving DecidableEq

/-- A raw project entry (source lines 201-225). -/
structure RawProject where
  name : Option Scalar
  date : Option Scalar
  start_date : Option Scalar
  end_date : Option Scalar
  location : Option Scalar
  url : Option Scalar
  summary : Option Scalar
  highlights : List Str
deriving DecidableEq

/-- A raw skill entry (source lines 230-235). -/
structure RawSkill where
  label : Option Scalar
  details : Option Scalar
deriving DecidableEq

/-- The `authors` value of a raw publication: a comma-separated string, a
list, or any other Python value (`pub.get("authors", [])` yields `l []`
when the field is missing). -/
inductive PyAuthors where
  | s (v : Str)
  | l (vs : List Scalar)
  | other (v : Scalar)
deriving DecidableEq

/-- A raw publication entry (source lines 240-274). -/
structure RawPublication where
  title : Option Scalar
  authors : PyAuthors
  journal : Option Scalar
  date : Option Scalar
  doi : Option Scalar
  url : Option Scalar
  summary : Option Scalar
deriving DecidableEq

/-- A raw honors entry (source lines 279-284). -/
structure RawHonor where
  bullet : Option Scalar
deriving DecidableEq

/-- A raw patent entry (source lines 289-294). -/
structure RawPatent where
  number : Option Scalar
deriving DecidableEq

/-- A raw invited-talk entry (source lines 299-304). -/
structure RawTalk where
  reversed_number : Option Scalar
deriving DecidableEq

/-- The caller-supplied CV record (`cv_data`).  A missing scalar field is
`none`; a missing category list is `[]` (absence is equivalent to empty). -/
structure RawCVInput where
  name : Option Scalar := none
  headline : Option Scalar := none
  email : Option Scalar := none
  phone : Option Scalar := none
  location : Option Scalar := none
  website : Option Scalar := none
  linkedin : Option Scalar := none
  github : Option Scalar := none
  summary : Option Scalar := none
  experience : List RawExperience := []
  education : List RawEducation := []
  projects : List RawProject := []
  skills : List RawSkill := []
  publications : List RawPublication := []
  honors : List RawHonor := []
  patents : List RawPatent := []
  talks : List RawTalk := []
deriving DecidableEq

/-- The content of one built section: the summary is a list of strings,
every other category is a list of entries. -/
inductive SectionContent where
  | strLines (v : List Str)
  | entries (v : List Entry)
deriving DecidableEq

/-- Python truthiness of a section content value (`if content:`). -/
def contentTruthy : SectionContent → Bool
  | .strLines v => !v.isEmpty
  | .entries v => !v.isEmpty

/-- A value of the final `cv` dict. -/
inductive CVVal where
  | str (v : Str)
  | socials (es : List Entry)
  | sections (s : List (String × SectionContent))
deriving DecidableEq

/-- The design colors dict (source lines 362-368): one key per color role. -/
structure DesignColors where
  name : Scalar
  headline : Scalar
  connections : Scalar
  section_titles : Scalar
  links : Scalar
deriving DecidableEq

/-- The `font_family` dict (source lines 372-378): one key per typography
role. -/
structure FontFamilySpec where
  body : Scalar
  name : Scalar
  headline : Scalar
  connections : Scalar
  section_titles : Scalar
deriving DecidableEq

/-- The design block (source lines 354-379). -/
structure Design where
  theme : String
  colors : Option DesignColors
  typography : Option FontFamilySpec
deriving DecidableEq

/-- Caller-supplied design overrides (`design_settings`). -/
structure DesignSettings where
  primaryColor : Option Scalar := none
  fontFamily : Option Scalar := none
deriving DecidableEq

instance instDecEqExcept {ε α : Type} [DecidableEq ε] [DecidableEq α] :
    DecidableEq (Except ε α)
  | .error a, .error b =>
    if h : a = b then .isTrue (congrArg _ h)
    else .isFalse (fun he => h (Except.error.inj he))
  | .error _, .ok _ => .isFalse Except.noConfusion
  | .ok _, .error _ => .isFalse Except.noConfusion
  | .ok a, .ok b =>
    if h : a = b then .isTrue (congrArg _ h)
    else .isFalse (fun he => h (Except.ok.inj he))

/-- The assembled root document (source lines 381-384). -/
structure Doc where
  cv : List (String × CVVal)
  design : Design
deriving DecidableEq

/-- The summary section (source lines 139-141).  The code applies `.strip()`
to the raw value after a truthiness check, so a truthy non-string summary
raises `AttributeError`. -/
def mkSummarySection (summary : Option Scalar) : Except Str (Option (List Str)) :=
  match summary with
  | none => .ok none
  | some v =>
    if pyTruthy v then
      match pyStripAttr v with
      | .error e => .error e
      | .ok s => if !s.isEmpty then .ok (some [s]) else .ok none
    else .ok none

/-- One experience entry (source lines 146-168): skipped unless company or
position is non-empty after coercion and trimming; the missing one of the
two is replaced by a placeholder; date / location / summary fields are
copied verbatim when truthy; blank highlights are dropped (survivors are
kept verbatim). -/
def mkExperienceEntry (exp : RawExperience) : Option Entry :=
  let company := pyCoerceStrip exp.company
  let position := pyCoerceStrip exp.position
  if company.isEmpty && position.isEmpty then none
  else
    let entry : Entry :=
      [("company", .str (if company.isEmpty then "Company".toList else company)),
       ("position", .str (if position.isEmpty then "Position".toList else position))]
    let entry := if truthyOpt exp.start_date then dictInsert entry "start_date" (.raw (getS exp.start_date)) else entry
    let entry := if truthyOpt exp.end_date then dictInsert entry "end_date" (.raw (getS exp.end_date)) else entry
    let entry := if truthyOpt exp.location then dictInsert entry "location" (.raw (getS exp.location)) else entry
    let entry := if truthyOpt exp.summary then dictInsert entry "summary" (.raw (getS exp.summary)) else entry
    let highlights := exp.highlights.filter (fun h => !h.isEmpty && !(strip h).isEmpty)
    let entry := if !highlights.isEmpty then dictInsert entry "highlights" (.strList highlights) else entry
    some entry

/-- The experience section (source lines 144-170). -/
def mkExperienceSection (l : List RawExperience) : Option (List Entry) :=
  if l.isEmpty then none
  else
    let experience_list := l.filterMap mkExperienceEntry
    if !experience_list.isEmpty then some experience_list else none

/-- One education entry (source lines 175-196): skipped unless both
institution and area are non-empty after coercion and trimming. -/
def mkEducationEntry (edu : RawEducation) : Option Entry :=
  let institution := pyCoerceStrip edu.institution
  let area := pyCoerceStrip edu.area
  if institution.isEmpty || area.isEmpty then none
  else
    let entry : Entry := [("institution", .str institution), ("area", .str area)]
    let entry := if truthyOpt edu.degree then dictInsert entry "degree" (.raw (getS edu.degree)) else entry
    let entry := if truthyOpt edu.start_date then dictInsert entry "start_date" (.raw (getS edu.start_date)) else entry
    let entry := if truthyOpt edu.end_date then dictInsert entry "end_date" (.raw (getS edu.end_date)) else entry
    let entry := if truthyOpt edu.location then dictInsert entry "location" (.raw (getS edu.location)) else entry
    let entry := if truthyOpt edu.summary then dictInsert entry "summary" (.raw (getS edu.summary)) else entry
    let highlights := edu.highlights.filter (fun h => !h.isEmpty && !(strip h).isEmpty)
    let entry := if !highlights.isEmpty then dictInsert entry "highlights" (.strList highlights) else entry
    some entry

/-- The education section (source lines 173-198). -/
def mkEducationSection (l : List RawEducation) : Option (List Entry) :=
  if l.isEmpty then none
  else
    let education_list := l.filterMap mkEducationEntry
    if !education_list.isEmpty then some education_list else none

/-- One project entry (source lines 203-225): skipped unless the name is
non-empty; a truthy url rewrites the name into a markdown link. -/
def mkProjectEntry (proj : RawProject) : Option Entry :=
  let name := pyCoerceStrip proj.name
  if name.isEmpty then none
  else
    let entry : Entry := [("name", .str name)]
    let entry := if truthyOpt proj.date then dictInsert entry "date" (.raw (getS proj.date)) else entry
    let entry := if truthyOpt proj.start_date then dictInsert entry "start_date" (.raw (getS proj.start_date)) else entry
    let entry := if truthyOpt proj.end_date then dictInsert entry "end_date" (.raw (getS proj.end_date)) else entry
    let entry := if truthyOpt proj.location then dictInsert entry "location" (.raw (getS proj.location)) else entry
    let entry :=
      if truthyOpt proj.url then
        dictInsert entry "name"
          (.str ("[".toList ++ name ++ "](".toList ++ pyStr (getS proj.url) ++ ")".toList))
      else entry
    let entry := if truthyOpt proj.summary then dictInsert entry "summary" (.raw (getS proj.summary)) else entry
    let highlights := proj.highlights.filter (fun h => !h.isEmpty && !(strip h).isEmpty)
    let entry := if !highlights.isEmpty then dictInsert entry "highlights" (.strList highlights) else entry
    some entry

/-- The projects section (source lines 201-227). -/
def mkProjectsSection (l : List RawProject) : Option (List Entry) :=
  if l.isEmpty then none
  else
    let projects_list := l.filterMap mkProjectEntry
    if !projects_list.isEmpty then some projects_list else none

/-- One skill entry (source lines 231-235): admitted when label or details
is non-empty; both keys are always emitted, even when one is empty. -/
def mkSkillEntry (skill : RawSkill) : Option Entry :=
  let label := pyCoerceStrip skill.label
  let details := pyCoerceStrip skill.details
  if !label.isEmpty || !details.isEmpty then
    some [("label", .str label), ("details", .str details)]
  else none

/-- The skills section (source lines 230-237). -/
def mkSkillsSection (l : List RawSkill) : Option (List Entry) :=
  if l.isEmpty then none
  else
    let skills_list := l.filterMap mkSkillEntry
    if !skills_list.isEmpty then some skills_list else none

/-- Author parsing (source lines 249-255): a string is split on commas with
tokens stripped and empty tokens discarded, a list has each element
stringified and stripped with empty results discarded, anything else
yields no authors. -/
def parseAuthors : PyAuthors → List Str
  | .s a => (splitC ',' a).filterMap (fun t => if (strip t).isEmpty then none else some (strip t))
  | .l vs => vs.filterMap (fun a => if (strip (pyStr a)).isEmpty then none else some (strip (pyStr a)))
  | .other _ => []

/-- One publication entry (source lines 242-274): skipped unless the title
is non-empty and at least one author resolves. -/
def mkPublicationEntry (pub : RawPublication) : Option Entry :=
  let title := pyCoerceStrip pub.title
  if title.isEmpty then none
  else
    let author_list := parseAuthors pub.authors
    if author_list.isEmpty then none
    else
      let entry : Entry := [("title", .str title), ("authors", .strList author_list)]
      let entry := if truthyOpt pub.journal then dictInsert entry "journal" (.raw (getS pub.journal)) else entry
      let entry := if truthyOpt pub.date then dictInsert entry "date" (.raw (getS pub.date)) else entry
      let entry := if truthyOpt pub.doi then dictInsert entry "doi" (.raw (getS pub.doi)) else entry
      let entry := if truthyOpt pub.url then dictInsert entry "url" (.raw (getS pub.url)) else entry
      let entry := if truthyOpt pub.summary then dictInsert entry "summary" (.raw (getS pub.summary)) else entry
      some entry

/-- The publications section (source lines 240-276). -/
def mkPublicationsSection (l : List RawPublication) : Option (List Entry) :=
  if l.isEmpty then none
  else
    let publications_list := l.filterMap mkPublicationEntry
    if !publications_list.isEmpty then some publications_list else none

/-- The honors section (source lines 279-286). -/
def mkHonorsSection (l : List RawHonor) : Option (List Entry) :=
  if l.isEmpty then none
  else
    let honors_list := l.filterMap (fun h =>
      let b := pyCoerceStrip h.bullet
      if !b.isEmpty then some ([("bullet", YVal.str b)] : Entry) else none)
    if !honors_list.isEmpty then some honors_list else none

/-- The patents section (source lines 289-296). -/
def mkPatentsSection (l : List RawPatent) : Option (List Entry) :=
  if l.isEmpty then none
  else
    let patents_list := l.filterMap (fun p =>
      let n := pyCoerceStrip p.number
      if !n.isEmpty then some ([("number", YVal.str n)] : Entry) else none)
    if !patents_list.isEmpty then some patents_list else none

/-- The invited-talks section (source lines 299-306). -/
def mkTalksSection (l : List RawTalk) : Option (List Entry) :=
  if l.isEmpty then none
  else
    let talks_list := l.filterMap (fun t =>
      let n := pyCoerceStrip t.reversed_number
      if !n.isEmpty then some ([("reversed_number", YVal.str n)] : Entry) else none)
    if !talks_list.isEmpty then some talks_list else none

/-- The nine built section blocks, one per category. -/
structure Blocks where
  summary : Option (List Str)
  experience : Option (List Entry)
  education : Option (List Entry)
  projects : Option (List Entry)
  skills : Option (List Entry)
  publications : Option (List Entry)
  honors : Option (List Entry)
  patents : Option (List Entry)
  talks : Option (List Entry)
deriving DecidableEq

/-- The `section_map` dict (source lines 309-319): category identifier to
output key and content. -/
def section_map (b : Blocks) : List (String × String × Option SectionContent) :=
  [("summary", "Summary", b.summary.map SectionContent.strLines),
   ("experience", "experience", b.experience.map SectionContent.entries),
   ("education", "education", b.education.map SectionContent.entries),
   ("projects", "projects", b.projects.map SectionContent.entries),
   ("skills", "skills", b.skills.map SectionContent.entries),
   ("publications", "publications", b.publications.map SectionContent.entries),
   ("honors", "selected_honors", b.honors.map SectionContent.entries),
   ("patents", "patents", b.patents.map SectionContent.entries),
   ("talks", "invited_talks", b.talks.map SectionContent.entries)]

/-- The fixed default section order (source lines 323-324). -/
def defaultSectionOrder : List String :=
  ["summary", "experience", "education", "projects", "skills",
   "publications", "honors", "patents", "talks"]

/-- `if not section_order:` (source line 322): a missing or empty ordering
falls back to the default. -/
def resolveOrder : Option (List String) → List String
  | none => defaultSectionOrder
  | some l => if l.isEmpty then defaultSectionOrder else l

/-- The body of the section-ordering loop (source lines 328-332): skip an
unknown identifier, add a non-empty content under its output key. -/
def orderStep (b : Blocks) (sections : List (String × SectionContent))
    (section_id : String) : List (String × SectionContent) :=
  match (section_map b).find? (fun p => p.1 == section_id) with
  | some (_, yaml_key, some content) =>
    if contentTruthy content then dictInsert sections yaml_key content else sections
  | some (_, _, none) => sections
  | none => sections

/-- Build the ordered `sections` dict (source lines 327-332). -/
def buildOrderedSections (b : Blocks) (order : List String) :
    List (String × SectionContent) :=
  order.foldl (orderStep b) []

/-- The social networks list (source lines 121-125). -/
def mkSocialNetworks (linkedin github : Str) : List Entry :=
  (if !linkedin.isEmpty then
      [[("network", YVal.str "LinkedIn".toList), ("username", YVal.str linkedin)]]
   else []) ++
  (if !github.isEmpty then
      [[("network", YVal.str "GitHub".toList), ("username", YVal.str github)]]
   else [])

/-- The `cv` dict (source lines 335-351): each field is emitted only when
its (already computed) value is non-empty. -/
def mkCvSection (name headline email phone location website : Str)
    (social_networks : List Entry) (sections : List (String × SectionContent)) :
    List (String × CVVal) :=
  (if !name.isEmpty then [("name", CVVal.str name)] else []) ++
  (if !headline.isEmpty then [("headline", CVVal.str headline)] else []) ++
  (if !email.isEmpty then [("email", CVVal.str email)] else []) ++
  (if !phone.isEmpty then [("phone", CVVal.str phone)] else []) ++
  (if !location.isEmpty then [("location", CVVal.str location)] else []) ++
  (if !website.isEmpty then [("website", CVVal.str website)] else []) ++
  (if !social_networks.isEmpty then [("social_networks", CVVal.socials social_networks)] else []) ++
  (if !sections.isEmpty then [("sections", CVVal.sections sections)] else [])

/-- The design block (source lines 354-379): the theme is always present;
a truthy primary color is broadcast over the five color roles and a truthy
font family over the five typography roles. -/
def buildDesign (theme : String) (design_settings : Option DesignSettings) : Design :=
  match design_settings with
  | none => { theme := theme, colors := none, typography := none }
  | some ds =>
    let colors :=
      match ds.primaryColor with
      | some pc => if pyTruthy pc then some ⟨pc, pc, pc, pc, pc⟩ else none
      | none => none
    let typography :=
      match ds.fontFamily with
      | some ff => if pyTruthy ff then some ⟨ff, ff, ff, ff, ff⟩ else none
      | none => none
    { theme := theme, colors := colors, typography := typography }

/-- The local variable `name` at source line 336: it is first bound to the
trimmed personal name (line 111) but the projects loop reassigns it to each
project name in turn (line 205), so when projects are supplied it ends up
holding the last project name. -/
def shadowedName (cv_data : RawCVInput) : Str :=
  match cv_data.projects.getLast? with
  | some proj => pyCoerceStrip proj.name
  | none => pyCoerceStrip cv_data.name

/-- `CVService._build_yaml_structure` (source lines 91-384).  The only
step that can raise is the summary block (line 140); every other branch
coerces scalars defensively, so the AttributeError there propagates and
otherwise the assembled document is returned. -/
def _build_yaml_structure (cv_data : RawCVInput) (theme : String)
    (design_settings : Option DesignSettings) (section_order : Option (List String)) :
    Except Str Doc :=
  match mkSummarySection cv_data.summary with
  | .error e => .error e
  | .ok section_summary =>
    let headline := pyCoerce cv_data.headline
    let email := pyCoerce cv_data.email
    let phone := pyCoerce cv_data.phone
    let location := pyCoerce cv_data.location
    let website := normalize_url (pyCoerce cv_data.website)
    let linkedin := pyCoerce cv_data.linkedin
    let github := pyCoerce cv_data.github
    let social_networks := mkSocialNetworks linkedin github
    let blocks : Blocks :=
      { summary := section_summary
        experience := mkExperienceSection cv_data.experience
        education := mkEducationSection cv_data.education
        projects := mkProjectsSection cv_data.projects
        skills := mkSkillsSection cv_data.skills
        publications := mkPublicationsSection cv_data.publications
        honors := mkHonorsSection cv_data.honors
        patents := mkPatentsSection cv_data.patents
        talks := mkTalksSection cv_data.talks }
    let name := shadowedName cv_data
    let order := resolveOrder section_order
    let sections := buildOrderedSections blocks order
    .ok { cv := mkCvSection name headline email phone location website social_networks sections
          design := buildDesign theme design_settings }

/-! ### Specification-side definitions

`specOrderedSections` renders the Section Orderer exactly as the spec words
it: iterate the requested order, emit each known category whose block is
non-empty under its output key, skip unknown identifiers.  It is compared
with the code-derived `buildOrderedSections`. -/

/-- Modelled from the words of the spec (Section Orderer): the requested
identifiers are mapped, in order, to their output key and non-empty block;
unknown identifiers and empty blocks are skipped. -/
def specOrderedSections (b : Blocks) (order : List String) :
    List (String × SectionContent) :=
  order.filterMap (fun id =>
    match (section_map b).find? (fun p => p.1 == id) with
    | some (_, yaml_key, some content) =>
      if contentTruthy content then some (yaml_key, content) else none
    | _ => none)

/-! ### Association-list lemmas -/

theorem lookupKV_cons {α : Type} (p : String × α) (d : List (String × α)) (k : String) :
    lookupKV (p :: d) k = if p.1 == k then some p.2 else lookupKV d k := by
  cases h : p.1 == k <;> simp [lookupKV, List.find?_cons, h]

theorem lookupKV_append {α : Type} (d₁ d₂ : List (String × α)) (k : String) :
    lookupKV (d₁ ++ d₂) k = (lookupKV d₁ k).or (lookupKV d₂ k) := by
  induction d₁ with
  | nil => simp [lookupKV]
  | cons p d ih =>
    rw [List.cons_append, lookupKV_cons, lookupKV_cons]
    cases h : p.1 == k <;> simp [h, ih]

theorem lookupKV_eq_none {α : Type} (d : List (String × α)) (k : String)
    (h : d.any (fun p => p.1 == k) = false) : lookupKV d k = none := by
  induction d with
  | nil => rfl
  | cons p d ih =>
    simp only [List.any_cons, Bool.or_eq_false_iff] at h
    rw [lookupKV_cons, h.1, if_neg (by simp)]
    exact ih h.2

theorem dictInsert_eq_append {α : Type} (d : List (String × α)) (k : String) (v : α)
    (h : d.any (fun p => p.1 == k) = false) : dictInsert d k v = d ++ [(k, v)] := by
  induction d with
  | nil => rfl
  | cons p d ih =>
    simp only [List.any_cons, Bool.or_eq_false_iff] at h
    rw [dictInsert, if_neg (by simp [h.1]), ih h.2, List.cons_append]

theorem lookupKV_dictInsert_ne {α : Type} (d : List (String × α)) (k : String) (v : α)
    (k' : String) (h : k ≠ k') :
    lookupKV (dictInsert d k v) k' = lookupKV d k' := by
  induction d with
  | nil =>
    rw [dictInsert, lookupKV_cons]
    simp [lookupKV, h]
  | cons p d ih =>
    rw [dictInsert]
    cases hp : p.1 == k
    · rw [if_neg (by simp [hp]), lookupKV_cons, lookupKV_cons, ih]
    · have hpk : p.1 = k := by simpa using hp
      rw [if_pos (by simp [hp]), lookupKV_cons, lookupKV_cons]
      have hq : (k == k') = false := by simp [h]
      simp [hpk, hq]

theorem lookupKV_dictInsert_self {α : Type} (d : List (String × α)) (k : String) (v : α) :
    lookupKV (dictInsert d k v) k = some v := by
  induction d with
  | nil =>
    rw [dictInsert, lookupKV_cons]
    simp
  | cons p d ih =>
    rw [dictInsert]
    cases hp : p.1 == k
    · rw [if_neg (by simp [hp]), lookupKV_cons, hp, if_neg (by simp), ih]
    · rw [if_pos (by simp [hp]), lookupKV_cons]
      simp

theorem lookupKV_ite_dictInsert {α : Type} (c : Prop) [Decidable c]
    (d : List (String × α)) (k : String) (v : α) (k' : String) (h : k ≠ k') :
    lookupKV (if c then dictInsert d k v else d) k' = lookupKV d k' := by
  split
  · exact lookupKV_dictInsert_ne d k v k' h
  · rfl

theorem lookupKV_ite_singleton_ne {α : Type} (c : Prop) [Decidable c]
    (k : String) (v : α) (k' : String) (h : k ≠ k') :
    lookupKV (if c then [(k, v)] else []) k' = none := by
  split
  · rw [lookupKV_cons]
    simp [h, lookupKV]
  · rfl

theorem lookupKV_ite_singleton_self {α : Type} (c : Prop) [Decidable c]
    (k : String) (v : α) :
    lookupKV (if c then [(k, v)] else []) k = if c then some v else none := by
  split
  · rw [lookupKV_cons]
    simp
  · rfl

theorem lookupKV_ite_nil_singleton_ne {α : Type} (c : Prop) [Decidable c]
    (k : String) (v : α) (k' : String) (h : k ≠ k') :
    lookupKV (if c then ([] : List (String × α)) else [(k, v)]) k' = none := by
  split
  · rfl
  · rw [lookupKV_cons]
    simp [h, lookupKV]

theorem lookupKV_ite_nil_singleton_self {α : Type} (c : Prop) [Decidable c]
    (k : String) (v : α) :
    lookupKV (if c then ([] : List (String × α)) else [(k, v)]) k =
      (if c then none else some v) := by
  split
  · rfl
  · rw [lookupKV_cons]
    simp

theorem mem_ite_singleton {α : Type} {a x : α} {c : Prop} [Decidable c]
    (h : a ∈ (if c then [x] else [])) : c ∧ a = x := by
  by_cases hc : c
  · rw [if_pos hc] at h
    exact ⟨hc, by simpa using h⟩
  · rw [if_neg hc] at h
    simp at h

/-! ### Claims -/

/-- Claim C2: `normalize_url` applies exactly this policy in this order:
blank input yields the empty string; a comma or an internal space in the
trimmed input yields the empty string; without a scheme prefix,
`https://` is prepended; a result without a dot yields the empty string.
Consequently `example.com` maps to `https://example.com`,
`not a url, two` maps to the empty string, and `https://a.b` is returned
unchanged. -/
theorem claim2_normalize_url :
    (∀ url : Str, strip url = [] → normalize_url url = [])
    ∧ (∀ url : Str, ((strip url).contains ',' = true ∨ (strip url).contains ' ' = true) →
        normalize_url url = [])
    ∧ (∀ url : Str, strip url ≠ [] →
        (strip url).contains ',' = false → (strip url).contains ' ' = false →
        "http://".toList.isPrefixOf (strip url) = false →
        "https://".toList.isPrefixOf (strip url) = false →
        normalize_url url =
          (if ("https://".toList ++ strip url).contains '.' then
            "https://".toList ++ strip url
          else []))
    ∧ (∀ url : Str, strip url ≠ [] →
        (strip url).contains ',' = false → (strip url).contains ' ' = false →
        ("http://".toList.isPrefixOf (strip url) = true ∨
          "https://".toList.isPrefixOf (strip url) = true) →
        normalize_url url = (if (strip url).contains '.' then strip url else []))
    ∧ normalize_url "example.com".toList = "https://example.com".toList
    ∧ normalize_url "not a url, two".toList = []
    ∧ normalize_url "https://a.b".toList = "https://a.b".toList := by
  have hemp : ∀ url : Str, strip url ≠ [] → url.isEmpty = false := by
    intro url hs
    cases url with
    | nil => exact absurd rfl hs
    | cons a l => rfl
  have hemp2 : ∀ url : Str, strip url ≠ [] → (strip url).isEmpty = false := by
    intro url hs
    cases hq : strip url with
    | nil => exact absurd hq hs
    | cons a l => rfl
  refine ⟨?_, ?_, ?_, ?_, by decide, by decide, by decide⟩
  · intro url h
    have hcond : (url.isEmpty || (strip url).isEmpty) = true := by
      rw [h]
      simp
    unfold normalize_url
    rw [if_pos hcond]
  · intro url hc
    have hs : strip url ≠ [] := by
      rcases hc with hc | hc <;> intro he <;> rw [he] at hc <;> simp at hc
    have h1 : ¬((url.isEmpty || (strip url).isEmpty) = true) := by
      rw [hemp url hs, hemp2 url hs]
      simp
    have h2 : ((strip url).contains ',' || (strip url).contains ' ') = true := by
      rcases hc with hc | hc
      · rw [hc]
        rfl
      · rw [hc, Bool.or_true]
    unfold normalize_url
    rw [if_neg h1]
    dsimp only
    rw [if_pos h2]
  · intro url hs hc1 hc2 hp1 hp2
    have h1 : ¬((url.isEmpty || (strip url).isEmpty) = true) := by
      rw [hemp url hs, hemp2 url hs]
      simp
    have h2 : ¬(((strip url).contains ',' || (strip url).contains ' ') = true) := by
      rw [hc1, hc2]
      simp
    have h3 : ¬(("http://".toList.isPrefixOf (strip url) ||
        "https://".toList.isPrefixOf (strip url)) = true) := by
      rw [hp1, hp2]
      simp
    unfold normalize_url
    rw [if_neg h1]
    dsimp only
    rw [if_neg h2, if_neg h3]
  · intro url hs hc1 hc2 hp
    have h1 : ¬((url.isEmpty || (strip url).isEmpty) = true) := by
      rw [hemp url hs, hemp2 url hs]
      simp
    have h2 : ¬(((strip url).contains ',' || (strip url).contains ' ') = true) := by
      rw [hc1, hc2]
      simp
    have h3 : (("http://".toList.isPrefixOf (strip url) ||
        "https://".toList.isPrefixOf (strip url)) = true) := by
      rcases hp with hp | hp
      · rw [hp]
        rfl
      · rw [hp, Bool.or_true]
    unfold normalize_url
    rw [if_neg h1]
    dsimp only
    rw [if_neg h2, if_pos h3]

/-- Claim C2 witness: the third clause instantiated at `foo.com`. -/
theorem claim2_witness : normalize_url "foo.com".toList = "https://foo.com".toList := by
  have h := claim2_normalize_url.2.2.1 "foo.com".toList
    (by decide) (by decide) (by decide) (by decide) (by decide)
  rw [h]
  decide

/-- Claim C10: an explicitly supplied empty section ordering is treated
exactly like an absent ordering: the full default sequence is applied. -/
theorem claim10_empty_order_is_default :
    (∀ (cv_data : RawCVInput) (theme : String) (ds : Option DesignSettings),
      _build_yaml_structure cv_data theme ds (some []) =
        _build_yaml_structure cv_data theme ds none)
    ∧ resolveOrder (some []) = defaultSectionOrder
    ∧ defaultSectionOrder =
        ["summary", "experience", "education", "projects", "skills",
         "publications", "honors", "patents", "talks"] :=
  ⟨fun _ _ _ => rfl, rfl, rfl⟩

/-- The end-to-end input of claim C3: a name and one education record with
an institution but no area of study. -/
def inputC3 : RawCVInput :=
  { name := some (.s "Ada".toList)
    education := [{ institution := some (.s "MIT".toList), area := none, degree := none,
                    start_date := none, end_date := none, location := none, summary := none,
                    highlights := [] }] }

/-- Claim C3: an education entry is admitted iff both its institution and
its area are non-empty after trimming; the input with name `Ada` and one
education record carrying only `MIT` yields a document with no education
section at all (indeed with no sections member). -/
theorem claim3_education_filter :
    (∀ edu : RawEducation, (mkEducationEntry edu).isSome = true ↔
        (pyCoerceStrip edu.institution ≠ [] ∧ pyCoerceStrip edu.area ≠ []))
    ∧ _build_yaml_structure inputC3 "classic" none none =
        .ok { cv := [("name", CVVal.str "Ada".toList)],
              design := { theme := "classic", colors := none, typography := none } } := by
  constructor
  · intro edu
    by_cases h1 : pyCoerceStrip edu.institution = []
    · simp [mkEducationEntry, h1]
    · by_cases h2 : pyCoerceStrip edu.area = []
      · simp [mkEducationEntry, h1, h2]
      · simp [mkEducationEntry, h1, h2]
  · decide

/-- Whether the raw `summary` value survives the attribute access at source
line 140: every falsy value short-circuits and every string has `strip`,
but a truthy non-string raises. -/
def summarySafe : Option Scalar → Bool
  | some (.num n) => n == 0
  | _ => true

/-- The crashing input of claim C9: a `summary` that is the number 42, a
scalar the Field Normalizer contract admits. -/
def inputC9 : RawCVInput := { name := some (.s "Ada".toList), summary := some (.num 42) }

theorem mkSummarySection_ok (o : Option Scalar) (h : summarySafe o = true) :
    ∃ r, mkSummarySection o = .ok r := by
  cases o with
  | none => exact ⟨none, rfl⟩
  | some v =>
    cases v with
    | s w =>
      by_cases ht : pyTruthy (.s w) = true
      · by_cases hse : strip w = []
        · exact ⟨none, by simp [mkSummarySection, ht, pyStripAttr, hse]⟩
        · exact ⟨some [strip w], by simp [mkSummarySection, ht, pyStripAttr, hse]⟩
      · have ht' : pyTruthy (.s w) = false := by
          revert ht
          cases pyTruthy (.s w) <;> simp
        exact ⟨none, by simp [mkSummarySection, ht']⟩
    | num n =>
      have hn : n = 0 := by simpa [summarySafe] using h
      subst hn
      exact ⟨none, by simp [mkSummarySection, pyTruthy]⟩
    | null => exact ⟨none, by simp [mkSummarySection, pyTruthy]⟩

/-- Claim C9: the engine is NOT total on the inputs the Field Normalizer
contract admits: a truthy numeric `summary` raises `AttributeError` at
source line 140 (`cv_data["summary"].strip()` on an int).  For every input
whose summary survives that attribute access — every string, `None`,
missing, or falsy value — assembly returns a document and never raises. -/
theorem claim9_silent_omission :
    _build_yaml_structure inputC9 "classic" none none =
      .error "AttributeError: strip".toList
    ∧ (∀ (cv_data : RawCVInput) (theme : String) (ds : Option DesignSettings)
        (so : Option (List String)), summarySafe cv_data.summary = true →
        ∃ doc, _build_yaml_structure cv_data theme ds so = .ok doc) := by
  constructor
  · decide
  · intro cv_data theme ds so h
    obtain ⟨r, hr⟩ := mkSummarySection_ok cv_data.summary h
    have hbuild : ∃ doc, _build_yaml_structure cv_data theme ds so = .ok doc := by
      unfold _build_yaml_structure
      rw [hr]
      exact ⟨_, rfl⟩
    exact hbuild

/-- Claim C9 witness: the all-empty input assembles successfully. -/
theorem claim9_witness :
    ∃ doc, _build_yaml_structure {} "classic" none none = .ok doc :=
  claim9_silent_omission.2 {} "classic" none none (by decide)

/-- The non-blank highlights that survive the filter at source line 165. -/
def keptHighlights (l : List Str) : List Str :=
  l.filter (fun h => !h.isEmpty && !(strip h).isEmpty)

/-- Every key of an admitted experience entry, characterised: company and
position are trimmed with placeholders, the optional fields are present
exactly when their raw value is truthy (and then carry it verbatim), and
the highlights key is present exactly when a non-blank highlight survives
(and then carries the survivors verbatim). -/
theorem mkExperienceEntry_lookup (exp : RawExperience) (ent : Entry)
    (h : mkExperienceEntry exp = some ent) :
    lookupKV ent "company" =
      some (.str (if (pyCoerceStrip exp.company).isEmpty then "Company".toList
        else pyCoerceStrip exp.company))
    ∧ lookupKV ent "position" =
      some (.str (if (pyCoerceStrip exp.position).isEmpty then "Position".toList
        else pyCoerceStrip exp.position))
    ∧ lookupKV ent "start_date" =
      (if truthyOpt exp.start_date then some (.raw (getS exp.start_date)) else none)
    ∧ lookupKV ent "end_date" =
      (if truthyOpt exp.end_date then some (.raw (getS exp.end_date)) else none)
    ∧ lookupKV ent "location" =
      (if truthyOpt exp.location then some (.raw (getS exp.location)) else none)
    ∧ lookupKV ent "summary" =
      (if truthyOpt exp.summary then some (.raw (getS exp.summary)) else none)
    ∧ lookupKV ent "highlights" =
      (if (keptHighlights exp.highlights).isEmpty then none
        else some (.strList (keptHighlights exp.highlights))) := by
  simp only [mkExperienceEntry] at h
  by_cases hg : ((pyCoerceStrip exp.company).isEmpty && (pyCoerceStrip exp.position).isEmpty) = true
  · rw [if_pos hg] at h
    exact absurd h (by simp)
  · rw [if_neg hg] at h
    injection h with h
    subst h
    refine ⟨?_, ?_, ?_, ?_, ?_, ?_, ?_⟩
    · rw [lookupKV_ite_dictInsert, lookupKV_ite_dictInsert, lookupKV_ite_dictInsert,
        lookupKV_ite_dictInsert, lookupKV_ite_dictInsert, lookupKV_cons]
      · simp
      all_goals decide
    · rw [lookupKV_ite_dictInsert, lookupKV_ite_dictInsert, lookupKV_ite_dictInsert,
        lookupKV_ite_dictInsert, lookupKV_ite_dictInsert]
      · simp [lookupKV_cons, lookupKV]
      all_goals decide
    · rw [lookupKV_ite_dictInsert, lookupKV_ite_dictInsert, lookupKV_ite_dictInsert,
        lookupKV_ite_dictInsert]
      · by_cases ht : truthyOpt exp.start_date = true
        · rw [if_pos ht, if_pos ht, lookupKV_dictInsert_self]
        · rw [if_neg ht, if_neg ht]
          simp [lookupKV_cons, lookupKV]
      all_goals decide
    · rw [lookupKV_ite_dictInsert, lookupKV_ite_dictInsert, lookupKV_ite_dictInsert]
      · by_cases ht : truthyOpt exp.end_date = true
        · rw [if_pos ht, if_pos ht, lookupKV_dictInsert_self]
        · rw [if_neg ht, if_neg ht, lookupKV_ite_dictInsert]
          · simp [lookupKV_cons, lookupKV]
          · decide
      all_goals decide
    · rw [lookupKV_ite_dictInsert, lookupKV_ite_dictInsert]
      · by_cases ht : truthyOpt exp.location = true
        · rw [if_pos ht, if_pos ht, lookupKV_dictInsert_self]
        · rw [if_neg ht, if_neg ht, lookupKV_ite_dictInsert, lookupKV_ite_dictInsert]
          · simp [lookupKV_cons, lookupKV]
          all_goals decide
      all_goals decide
    · rw [lookupKV_ite_dictInsert]
      · by_cases ht : truthyOpt exp.summary = true
        · rw [if_pos ht, if_pos ht, lookupKV_dictInsert_self]
        · rw [if_neg ht, if_neg ht, lookupKV_ite_dictInsert, lookupKV_ite_dictInsert,
            lookupKV_ite_dictInsert]
          · simp [lookupKV_cons, lookupKV]
          all_goals decide
      · decide
    · by_cases hh : (keptHighlights exp.highlights).isEmpty = true
      · have hb : (!(exp.highlights.filter
            (fun h => !h.isEmpty && !(strip h).isEmpty)).isEmpty) = false := by
          rw [show (exp.highlights.filter (fun h => !h.isEmpty && !(strip h).isEmpty)) =
            keptHighlights exp.highlights from rfl, hh]
          rfl
        rw [hb, if_neg (by simp), if_pos hh, lookupKV_ite_dictInsert,
          lookupKV_ite_dictInsert, lookupKV_ite_dictInsert, lookupKV_ite_dictInsert]
        · simp [lookupKV_cons, lookupKV]
        all_goals decide
      · have hb0 : (keptHighlights exp.highlights).isEmpty = false := by
          revert hh
          cases (keptHighlights exp.highlights).isEmpty <;> simp
        have hb : (!(exp.highlights.filter
            (fun h => !h.isEmpty && !(strip h).isEmpty)).isEmpty) = true := by
          rw [show (exp.highlights.filter (fun h => !h.isEmpty && !(strip h).isEmpty)) =
            keptHighlights exp.highlights from rfl, hb0]
          rfl
        rw [hb, if_pos rfl, lookupKV_dictInsert_self, if_neg hh]
        rfl

/-- Claim C5: an experience entry is admitted iff company or position is
non-empty after normalization; the missing one of the two is emitted as
the literal placeholder `Company` or `Position`, never blank. -/
theorem claim5_experience_filter :
    ∀ exp : RawExperience,
      ((mkExperienceEntry exp).isSome = true ↔
        (pyCoerceStrip exp.company ≠ [] ∨ pyCoerceStrip exp.position ≠ []))
      ∧ (∀ ent, mkExperienceEntry exp = some ent →
          lookupKV ent "company" =
            some (.str (if (pyCoerceStrip exp.company).isEmpty then "Company".toList
              else pyCoerceStrip exp.company))
          ∧ lookupKV ent "position" =
            some (.str (if (pyCoerceStrip exp.position).isEmpty then "Position".toList
              else pyCoerceStrip exp.position))
          ∧ (∀ v, lookupKV ent "company" = some (.str v) → v ≠ [])
          ∧ (∀ v, lookupKV ent "position" = some (.str v) → v ≠ [])) := by
  intro exp
  constructor
  · by_cases hc : pyCoerceStrip exp.company = []
    · by_cases hp : pyCoerceStrip exp.position = []
      · simp [mkExperienceEntry, hc, hp]
      · simp [mkExperienceEntry, hc, hp]
    · simp [mkExperienceEntry, hc]
  · intro ent h
    obtain ⟨h1, h2, -, -, -, -, -⟩ := mkExperienceEntry_lookup exp ent h
    refine ⟨h1, h2, ?_, ?_⟩
    · intro v hv
      rw [h1] at hv
      injection hv with hv
      injection hv with hv
      subst hv
      by_cases hce : (pyCoerceStrip exp.company).isEmpty = true
      · rw [if_pos hce]
        decide
      · rw [if_neg hce]
        intro he
        exact hce (by rw [he]; rfl)
    · intro v hv
      rw [h2] at hv
      injection hv with hv
      injection hv with hv
      subst hv
      by_cases hpe : (pyCoerceStrip exp.position).isEmpty = true
      · rw [if_pos hpe]
        decide
      · rw [if_neg hpe]
        intro he
        exact hpe (by rw [he]; rfl)

/-- Claim C5 witness: an experience record with only a company emits the
position placeholder. -/
theorem claim5_witness :
    lookupKV [("company", YVal.str "Acme".toList), ("position", YVal.str "Position".toList)]
        "company" =
      some (.str (if (pyCoerceStrip (some (Scalar.s "Acme".toList))).isEmpty then "Company".toList
        else pyCoerceStrip (some (Scalar.s "Acme".toList)))) :=
  ((claim5_experience_filter
      { company := some (.s "Acme".toList), position := none, start_date := none,
        end_date := none, location := none, summary := none, highlights := [] }).2
    _ (by decide)).1

theorem filterMap_strip_eq {α : Type} (f : α → Str) (l : List α) :
    l.filterMap (fun t => if f t = [] then none else some (f t)) =
      (l.map f).filter (fun t => !t.isEmpty) := by
  induction l with
  | nil => rfl
  | cons a l ih =>
    by_cases h : f a = []
    · simp [List.filterMap_cons, h, ih]
    · simp [List.filterMap_cons, h, ih]

/-- Claim C6: a publication entry is admitted iff its title is non-empty
after trimming and at least one author resolves; a string authors value is
split on commas with tokens trimmed and empty tokens dropped, a list value
has each element stringified and trimmed with empty results dropped, and
anything else resolves to zero authors. -/
theorem claim6_publication_filter :
    (∀ pub : RawPublication, (mkPublicationEntry pub).isSome = true ↔
        (pyCoerceStrip pub.title ≠ [] ∧ parseAuthors pub.authors ≠ []))
    ∧ (∀ a : Str, parseAuthors (.s a) =
        ((splitC ',' a).map strip).filter (fun t => !t.isEmpty))
    ∧ (∀ vs : List Scalar, parseAuthors (.l vs) =
        (vs.map (fun x => strip (pyStr x))).filter (fun t => !t.isEmpty))
    ∧ (∀ v : Scalar, parseAuthors (.other v) = [])
    ∧ (∀ (pub : RawPublication) (ent : Entry), mkPublicationEntry pub = some ent →
        lookupKV ent "title" = some (.str (pyCoerceStrip pub.title))
        ∧ lookupKV ent "authors" = some (.strList (parseAuthors pub.authors))) := by
  refine ⟨?_, ?_, ?_, fun _ => rfl, ?_⟩
  · intro pub
    by_cases ht : pyCoerceStrip pub.title = []
    · simp [mkPublicationEntry, ht]
    · by_cases ha : parseAuthors pub.authors = []
      · simp [mkPublicationEntry, ht, ha]
      · simp [mkPublicationEntry, ht, ha]
  · intro a
    have hfun : (fun t => if (strip t).isEmpty then none else some (strip t)) =
        (fun t : Str => if strip t = [] then none else some (strip t)) := by
      funext t
      by_cases h : strip t = [] <;> simp [h]
    show (splitC ',' a).filterMap
        (fun t => if (strip t).isEmpty then none else some (strip t)) = _
    rw [hfun]
    exact filterMap_strip_eq strip (splitC ',' a)
  · intro vs
    have hfun : (fun x : Scalar =>
          if (strip (pyStr x)).isEmpty then none else some (strip (pyStr x))) =
        (fun x : Scalar => if strip (pyStr x) = [] then none else some (strip (pyStr x))) := by
      funext x
      by_cases h : strip (pyStr x) = [] <;> simp [h]
    show vs.filterMap
        (fun x => if (strip (pyStr x)).isEmpty then none else some (strip (pyStr x))) = _
    rw [hfun]
    exact filterMap_strip_eq (fun x => strip (pyStr x)) vs
  · intro pub ent h
    simp only [mkPublicationEntry] at h
    by_cases ht : (pyCoerceStrip pub.title).isEmpty = true
    · rw [if_pos ht] at h
      exact absurd h (by simp)
    · rw [if_neg ht] at h
      by_cases ha : (parseAuthors pub.authors).isEmpty = true
      · rw [if_pos ha] at h
        exact absurd h (by simp)
      · rw [if_neg ha] at h
        injection h with h
        subst h
        constructor
        · rw [lookupKV_ite_dictInsert, lookupKV_ite_dictInsert, lookupKV_ite_dictInsert,
            lookupKV_ite_dictInsert, lookupKV_ite_dictInsert]
          · simp [lookupKV_cons, lookupKV]
          all_goals decide
        · rw [lookupKV_ite_dictInsert, lookupKV_ite_dictInsert, lookupKV_ite_dictInsert,
            lookupKV_ite_dictInsert, lookupKV_ite_dictInsert]
          · simp [lookupKV_cons, lookupKV]
          all_goals decide

/-- The concrete publication of the C6 witness: title `T`, authors given
as the comma-separated string `A, ,B` (the blank token is discarded). -/
def pubC6 : RawPublication :=
  { title := some (.s "T".toList), authors := .s "A, ,B".toList, journal := none,
    date := none, doi := none, url := none, summary := none }

/-- Claim C6 witness: the admitted entry of `pubC6` carries the trimmed
title and the two surviving authors. -/
theorem claim6_witness :
    lookupKV [("title", YVal.str "T".toList),
        ("authors", YVal.strList ["A".toList, "B".toList])] "title" =
      some (.str (pyCoerceStrip pubC6.title))
    ∧ lookupKV [("title", YVal.str "T".toList),
        ("authors", YVal.strList ["A".toList, "B".toList])] "authors" =
      some (.strList (parseAuthors pubC6.authors)) :=
  claim6_publication_filter.2.2.2.2 pubC6 _ (by decide)

/-- Claim C7: the design block always carries the theme (unknown themes
pass through uninterpreted); for every theme and every supplied truthy
primary color the colors member exists and carries that color broadcast
identically across all five color roles (and likewise a truthy font
family across all five typography roles); conversely a colors or
typography member only ever arises as such a broadcast, and absent or
falsy overrides leave no colors or typography member.  In particular
`#112233` with theme `classic` fills every color role with `#112233`. -/
theorem claim7_design_broadcast :
    (∀ (theme : String) (ds : Option DesignSettings),
      (buildDesign theme ds).theme = theme
      ∧ (∀ c, (buildDesign theme ds).colors = some c →
          ∃ s pc, ds = some s ∧ s.primaryColor = some pc ∧ pyTruthy pc = true ∧
            c = ⟨pc, pc, pc, pc, pc⟩)
      ∧ (∀ f, (buildDesign theme ds).typography = some f →
          ∃ s ff, ds = some s ∧ s.fontFamily = some ff ∧ pyTruthy ff = true ∧
            f = ⟨ff, ff, ff, ff, ff⟩)
      ∧ (ds = none →
          (buildDesign theme ds).colors = none ∧ (buildDesign theme ds).typography = none)
      ∧ (∀ s, ds = some s →
          (s.primaryColor = none ∨ ∃ pc, s.primaryColor = some pc ∧ pyTruthy pc = false) →
          (buildDesign theme ds).colors = none)
      ∧ (∀ s, ds = some s →
          (s.fontFamily = none ∨ ∃ ff, s.fontFamily = some ff ∧ pyTruthy ff = false) →
          (buildDesign theme ds).typography = none)
      ∧ (∀ s pc, ds = some s → s.primaryColor = some pc → pyTruthy pc = true →
          (buildDesign theme ds).colors = some ⟨pc, pc, pc, pc, pc⟩)
      ∧ (∀ s ff, ds = some s → s.fontFamily = some ff → pyTruthy ff = true →
          (buildDesign theme ds).typography = some ⟨ff, ff, ff, ff, ff⟩))
    ∧ buildDesign "classic"
        (some { primaryColor := some (.s "#112233".toList), fontFamily := none }) =
      { theme := "classic",
        colors := some { name := .s "#112233".toList, headline := .s "#112233".toList,
                         connections := .s "#112233".toList,
                         section_titles := .s "#112233".toList,
                         links := .s "#112233".toList },
        typography := none } := by
  constructor
  · intro theme ds
    cases ds with
    | none =>
      refine ⟨rfl, ?_, ?_, fun _ => ⟨rfl, rfl⟩, ?_, ?_, ?_, ?_⟩
      · intro c hc
        simp [buildDesign] at hc
      · intro f hf
        simp [buildDesign] at hf
      · intro s hs habs
        exact absurd hs (by simp)
      · intro s hs habs
        exact absurd hs (by simp)
      · intro s pc hs hpc htr
        exact absurd hs (by simp)
      · intro s ff hs hff htr
        exact absurd hs (by simp)
    | some s =>
      refine ⟨rfl, ?_, ?_, ?_, ?_, ?_, ?_, ?_⟩
      · intro c hc
        cases hpc : s.primaryColor with
        | none => simp [buildDesign, hpc] at hc
        | some pc =>
          by_cases htr : pyTruthy pc = true
          · simp [buildDesign, hpc, htr] at hc
            exact ⟨s, pc, rfl, hpc, htr, hc.symm⟩
          · simp [buildDesign, hpc, htr] at hc
      · intro f hf
        cases hff : s.fontFamily with
        | none => simp [buildDesign, hff] at hf
        | some ff =>
          by_cases htr : pyTruthy ff = true
          · simp [buildDesign, hff, htr] at hf
            exact ⟨s, ff, rfl, hff, htr, hf.symm⟩
          · simp [buildDesign, hff, htr] at hf
      · intro hn
        exact absurd hn (by simp)
      · intro s2 hs2 habs
        injection hs2 with hs2
        subst hs2
        rcases habs with hn | ⟨pc, hpc, hfa⟩
        · simp [buildDesign, hn]
        · simp [buildDesign, hpc, hfa]
      · intro s2 hs2 habs
        injection hs2 with hs2
        subst hs2
        rcases habs with hn | ⟨ff, hff, hfa⟩
        · simp [buildDesign, hn]
        · simp [buildDesign, hff, hfa]
      · intro s2 pc hs2 hpc htr
        injection hs2 with hs2
        subst hs2
        simp [buildDesign, hpc, htr]
      · intro s2 ff hs2 hff htr
        injection hs2 with hs2
        subst hs2
        simp [buildDesign, hff, htr]
  · decide

/-- Claim C7 witness: the forward broadcast direction instantiated away
from the spec example — theme `moderncv` with truthy primary color
`#abc` yields a colors member filling all five roles with `#abc`. -/
theorem claim7_witness :
    (buildDesign "moderncv"
        (some { primaryColor := some (.s "#abc".toList), fontFamily := none })).colors =
      some ⟨.s "#abc".toList, .s "#abc".toList, .s "#abc".toList,
        .s "#abc".toList, .s "#abc".toList⟩ :=
  (claim7_design_broadcast.1 "moderncv"
      (some { primaryColor := some (.s "#abc".toList), fontFamily := none })).2.2.2.2.2.2.1
    _ _ rfl rfl (by decide)

/-- The input refuting claim C4: one experience entry whose highlight
` a ` is non-blank but untrimmed, and one skill with no label. -/
def inputC4 : RawCVInput :=
  { experience := [{ company := some (.s "X".toList), position := none, start_date := none,
                     end_date := none, location := none, summary := none,
                     highlights := [" a ".toList] }]
    skills := [{ label := none, details := some (.s "Python".toList) }] }

/-- Claim C4 counterexample: the assembled document keeps the highlight
` a ` verbatim although its trimmed form differs (string fields are NOT
all trimmed), and the admitted skill emits `label` as the empty string
(an empty optional field is NOT omitted). -/
theorem claim4_counterexample :
    _build_yaml_structure inputC4 "classic" none none =
      .ok { cv := [("sections", CVVal.sections
              [("experience", SectionContent.entries
                 [[("company", .str "X".toList), ("position", .str "Position".toList),
                   ("highlights", .strList [" a ".toList])]]),
               ("skills", SectionContent.entries
                 [[("label", .str []), ("details", .str "Python".toList)]])])],
            design := { theme := "classic", colors := none, typography := none } }
    ∧ strip " a ".toList ≠ " a ".toList := by
  decide

/-- Claim C4 as amended: an admitted experience entry has its optional
fields (start date, end date, location, summary) omitted when their raw
value is falsy and copied verbatim otherwise; its highlights key is
present exactly when a non-blank highlight survives the filter and then
carries the surviving strings verbatim (non-blank but NOT trimmed); an
admitted skill entry always carries both `label` and `details`, trimmed,
even when one of them is empty. -/
theorem claim4_entry_normalization :
    (∀ (exp : RawExperience) (ent : Entry), mkExperienceEntry exp = some ent →
      lookupKV ent "highlights" =
        (if (keptHighlights exp.highlights).isEmpty then none
         else some (.strList (keptHighlights exp.highlights)))
      ∧ (∀ hs, lookupKV ent "highlights" = some (.strList hs) →
          ∀ x ∈ hs, x ≠ [] ∧ strip x ≠ [])
      ∧ lookupKV ent "start_date" =
          (if truthyOpt exp.start_date then some (.raw (getS exp.start_date)) else none)
      ∧ lookupKV ent "end_date" =
          (if truthyOpt exp.end_date then some (.raw (getS exp.end_date)) else none)
      ∧ lookupKV ent "location" =
          (if truthyOpt exp.location then some (.raw (getS exp.location)) else none)
      ∧ lookupKV ent "summary" =
          (if truthyOpt exp.summary then some (.raw (getS exp.summary)) else none))
    ∧ (∀ (sk : RawSkill) (ent : Entry), mkSkillEntry sk = some ent →
        ent = [("label", .str (pyCoerceStrip sk.label)),
               ("details", .str (pyCoerceStrip sk.details))]) := by
  constructor
  · intro exp ent h
    obtain ⟨-, -, h3, h4, h5, h6, h7⟩ := mkExperienceEntry_lookup exp ent h
    refine ⟨h7, ?_, h3, h4, h5, h6⟩
    intro hs hhs
    rw [h7] at hhs
    by_cases hhe : (keptHighlights exp.highlights).isEmpty = true
    · rw [if_pos hhe] at hhs
      exact absurd hhs (by simp)
    · rw [if_neg hhe] at hhs
      injection hhs with hhs
      injection hhs with hhs
      subst hhs
      intro x hx
      simp only [keptHighlights] at hx
      have hm := List.mem_filter.mp hx
      simpa using hm.2
  · intro sk ent h
    simp only [mkSkillEntry] at h
    by_cases hc : ((!(pyCoerceStrip sk.label).isEmpty) ||
        (!(pyCoerceStrip sk.details).isEmpty)) = true
    · rw [if_pos hc] at h
      injection h with h
      exact h.symm
    · rw [if_neg hc] at h
      exact absurd h (by simp)

/-- Claim C4 witness: the skill with no label is emitted with both keys,
the label being the (trimmed) empty string. -/
theorem claim4_witness :
    ([("label", YVal.str []), ("details", YVal.str "Python".toList)] : Entry) =
      [("label", .str (pyCoerceStrip (none : Option Scalar))),
       ("details", .str (pyCoerceStrip (some (Scalar.s "Python".toList))))] :=
  claim4_entry_normalization.2
    { label := none, details := some (.s "Python".toList) } _ (by decide)

/-- The input refuting claim C8: a whitespace-only headline. -/
def inputC8 : RawCVInput :=
  { name := some (.s "Ada".toList), headline := some (.s " ".toList) }

/-- Claim C8 counterexample: the whitespace-only headline trims to the
empty string, yet the personal-info block emits it verbatim — the
presence check trims only the name (and normalizes the website), not the
other personal fields. -/
theorem claim8_counterexample :
    _build_yaml_structure inputC8 "classic" none none =
      .ok { cv := [("name", CVVal.str "Ada".toList), ("headline", CVVal.str " ".toList)],
            design := { theme := "classic", colors := none, typography := none } }
    ∧ strip " ".toList = [] := by
  decide

/-- Claim C8 as amended: the personal-info block never contains an
empty-string field — each personal field is emitted iff its already
computed value is non-empty, and carries that value verbatim.  The name
value is trimmed (but is the function-local `name` variable, which the
projects loop overwrites) and the website value is normalized, so those
two are never whitespace-only; headline, email, phone and location are
only string-coerced, so whitespace-only values of those fields are
emitted. -/
theorem claim8_personal_block :
    (∀ (name headline email phone location website : Str) (socials : List Entry)
        (sections : List (String × SectionContent)),
      (∀ k v, (k, CVVal.str v) ∈
          mkCvSection name headline email phone location website socials sections → v ≠ [])
      ∧ lookupKV (mkCvSection name headline email phone location website socials sections)
          "name" = (if name.isEmpty then none else some (CVVal.str name))
      ∧ lookupKV (mkCvSection name headline email phone location website socials sections)
          "headline" = (if headline.isEmpty then none else some (CVVal.str headline))
      ∧ lookupKV (mkCvSection name headline email phone location website socials sections)
          "email" = (if email.isEmpty then none else some (CVVal.str email))
      ∧ lookupKV (mkCvSection name headline email phone location website socials sections)
          "phone" = (if phone.isEmpty then none else some (CVVal.str phone))
      ∧ lookupKV (mkCvSection name headline email phone location website socials sections)
          "location" = (if location.isEmpty then none else some (CVVal.str location))
      ∧ lookupKV (mkCvSection name headline email phone location website socials sections)
          "website" = (if website.isEmpty then none else some (CVVal.str website)))
    ∧ (∀ (cv_data : RawCVInput) (theme : String) (ds : Option DesignSettings)
        (so : Option (List String)) (doc : Doc),
        _build_yaml_structure cv_data theme ds so = .ok doc →
        ∃ sections, doc.cv =
          mkCvSection (shadowedName cv_data) (pyCoerce cv_data.headline)
            (pyCoerce cv_data.email) (pyCoerce cv_data.phone) (pyCoerce cv_data.location)
            (normalize_url (pyCoerce cv_data.website))
            (mkSocialNetworks (pyCoerce cv_data.linkedin) (pyCoerce cv_data.github))
            sections) := by
  constructor
  · intro name headline email phone location website socials sections
    refine ⟨?_, ?_, ?_, ?_, ?_, ?_, ?_⟩
    · intro k v h
      simp only [mkCvSection, List.mem_append] at h
      rcases h with ((((((h | h) | h) | h) | h) | h) | h) | h <;>
        first
        | (obtain ⟨hc, he⟩ := mem_ite_singleton h
           injection he with he1 he2
           injection he2 with he2
           subst he2
           simpa using hc)
        | (obtain ⟨hc, he⟩ := mem_ite_singleton h
           exact absurd he (by simp))
    · by_cases hn : name = [] <;>
        simp [mkCvSection, hn, lookupKV_append, lookupKV_ite_nil_singleton_ne, lookupKV_cons]
    · by_cases hn : headline = [] <;>
        simp [mkCvSection, hn, lookupKV_append, lookupKV_ite_nil_singleton_ne, lookupKV_cons]
    · by_cases hn : email = [] <;>
        simp [mkCvSection, hn, lookupKV_append, lookupKV_ite_nil_singleton_ne, lookupKV_cons]
    · by_cases hn : phone = [] <;>
        simp [mkCvSection, hn, lookupKV_append, lookupKV_ite_nil_singleton_ne, lookupKV_cons]
    · by_cases hn : location = [] <;>
        simp [mkCvSection, hn, lookupKV_append, lookupKV_ite_nil_singleton_ne, lookupKV_cons]
    · by_cases hn : website = [] <;>
        simp [mkCvSection, hn, lookupKV_append, lookupKV_ite_nil_singleton_ne, lookupKV_cons]
  · intro cv_data theme ds so doc h
    cases hsum : mkSummarySection cv_data.summary with
    | error e =>
      unfold _build_yaml_structure at h
      rw [hsum] at h
      simp at h
    | ok r =>
      unfold _build_yaml_structure at h
      rw [hsum] at h
      simp only [Except.ok.injEq] at h
      subst h
      exact ⟨_, rfl⟩

/-- Claim C8 witness: the whitespace-only headline of `inputC8` survives
into the assembled personal block. -/
theorem claim8_witness :
    ∃ sections,
      ([("name", CVVal.str "Ada".toList), ("headline", CVVal.str " ".toList)] :
          List (String × CVVal)) =
        mkCvSection (shadowedName inputC8) (pyCoerce inputC8.headline)
          (pyCoerce inputC8.email) (pyCoerce inputC8.phone) (pyCoerce inputC8.location)
          (normalize_url (pyCoerce inputC8.website))
          (mkSocialNetworks (pyCoerce inputC8.linkedin) (pyCoerce inputC8.github))
          sections :=
  claim8_personal_block.2 inputC8 "classic" none none
    { cv := [("name", CVVal.str "Ada".toList), ("headline", CVVal.str " ".toList)],
      design := { theme := "classic", colors := none, typography := none } } (by decide)

theorem section_map_key_inj (b : Blocks) :
    ∀ r₁ ∈ section_map b, ∀ r₂ ∈ section_map b, r₁.2.1 = r₂.2.1 → r₁.1 = r₂.1 := by
  intro r₁ h₁ r₂ h₂ h
  fin_cases h₁ <;> fin_cases h₂ <;> simp_all

/-- The section-ordering loop with an arbitrary accumulator: as long as no
output key of a still-pending identifier is already a key of the
accumulator, the loop appends exactly the spec-side selection.  The
freshness premise is maintained because distinct identifiers map to
distinct output keys. -/
theorem buildOrdered_go (b : Blocks) :
    ∀ (order : List String) (acc : List (String × SectionContent)),
      order.Nodup →
      (∀ id ∈ order, ∀ r, (section_map b).find? (fun p => p.1 == id) = some r →
        acc.any (fun q => q.1 == r.2.1) = false) →
      order.foldl (orderStep b) acc = acc ++ specOrderedSections b order := by
  intro order
  induction order with
  | nil =>
    intro acc _ _
    simp [specOrderedSections]
  | cons id rest ih =>
    intro acc hnd hfresh
    rw [List.foldl_cons]
    cases hf : (section_map b).find? (fun p => p.1 == id) with
    | none =>
      have hstep : orderStep b acc id = acc := by simp [orderStep, hf]
      rw [hstep, ih acc hnd.of_cons
        (fun i hi r hr => hfresh i (List.mem_cons_of_mem _ hi) r hr)]
      congr 1
      simp [specOrderedSections, List.filterMap_cons, hf]
    | some r =>
      obtain ⟨i0, yk, oc⟩ := r
      cases oc with
      | none =>
        have hstep : orderStep b acc id = acc := by simp [orderStep, hf]
        rw [hstep, ih acc hnd.of_cons
          (fun i hi r hr => hfresh i (List.mem_cons_of_mem _ hi) r hr)]
        congr 1
        simp [specOrderedSections, List.filterMap_cons, hf]
      | some c =>
        by_cases hct : contentTruthy c = true
        · have hstep : orderStep b acc id = dictInsert acc yk c := by
            simp [orderStep, hf, hct]
          have hins : dictInsert acc yk c = acc ++ [(yk, c)] :=
            dictInsert_eq_append acc yk c (hfresh id (List.mem_cons_self id rest) _ hf)
          have hfresh2 : ∀ i ∈ rest, ∀ r2,
              (section_map b).find? (fun p => p.1 == i) = some r2 →
              (acc ++ [(yk, c)]).any (fun q => q.1 == r2.2.1) = false := by
            intro i hi r2 hr2
            rw [List.any_append, hfresh i (List.mem_cons_of_mem _ hi) r2 hr2]
            simp only [Bool.false_or, List.any_cons, List.any_nil, Bool.or_false]
            cases hyk : (yk == r2.2.1) with
            | false => rfl
            | true =>
              exfalso
              have hykeq : yk = r2.2.1 := by simpa using hyk
              have hm1 : (i0, yk, some c) ∈ section_map b := List.mem_of_find?_eq_some hf
              have hm2 : r2 ∈ section_map b := List.mem_of_find?_eq_some hr2
              have hr1 : i0 = id := by simpa using List.find?_some hf
              have hr21 : r2.1 = i := by simpa using List.find?_some hr2
              have hid : (i0, yk, some c).1 = r2.1 :=
                section_map_key_inj b _ hm1 _ hm2 (by simpa using hykeq)
              have hid2 : i0 = r2.1 := by simpa using hid
              have hii : id = i := by
                rw [← hr1, hid2, hr21]
              exact (List.nodup_cons.mp hnd).1 (hii ▸ hi)
          rw [hstep, hins, ih (acc ++ [(yk, c)]) hnd.of_cons hfresh2, List.append_assoc]
          congr 1
          simp [specOrderedSections, List.filterMap_cons, hf, hct]
        · have hstep : orderStep b acc id = acc := by simp [orderStep, hf, hct]
          rw [hstep, ih acc hnd.of_cons
            (fun i hi r hr => hfresh i (List.mem_cons_of_mem _ hi) r hr)]
          congr 1
          simp [specOrderedSections, List.filterMap_cons, hf, hct]

/-- The fully-populated blocks of the C1 example: all nine categories are
present. -/
def blocksC1 : Blocks :=
  { summary := some ["S".toList]
    experience := some [[("company", .str "C".toList)]]
    education := some [[("institution", .str "E".toList)]]
    projects := some [[("name", .str "P".toList)]]
    skills := some [[("label", .str "L".toList)]]
    publications := some [[("title", .str "T".toList)]]
    honors := some [[("bullet", .str "H".toList)]]
    patents := some [[("number", .str "N".toList)]]
    talks := some [[("reversed_number", .str "R".toList)]] }

/-- Claim C1: with an explicit (duplicate-free) ordering the sections dict
contains exactly the non-empty blocks of the requested categories in the
requested order, unknown identifiers skipped silently; the identifier to
output-key mapping is the fixed one (`summary` to `Summary`, `honors` to
`selected_honors`, `talks` to `invited_talks`, all others to themselves);
an absent ordering resolves to the fixed default sequence; and requesting
`[skills, summary]` with all nine categories populated emits exactly those
two keys in that order. -/
theorem claim1_section_ordering :
    (∀ (b : Blocks) (order : List String), order.Nodup →
        buildOrderedSections b order = specOrderedSections b order)
    ∧ (∀ b : Blocks, (section_map b).map (fun p => (p.1, p.2.1)) =
        [("summary", "Summary"), ("experience", "experience"),
         ("education", "education"), ("projects", "projects"), ("skills", "skills"),
         ("publications", "publications"), ("honors", "selected_honors"),
         ("patents", "patents"), ("talks", "invited_talks")])
    ∧ resolveOrder none = ["summary", "experience", "education", "projects", "skills",
        "publications", "honors", "patents", "talks"]
    ∧ buildOrderedSections blocksC1 ["skills", "summary"] =
        [("skills", SectionContent.entries [[("label", .str "L".toList)]]),
         ("Summary", SectionContent.strLines ["S".toList])] := by
  refine ⟨?_, fun b => rfl, rfl, by decide⟩
  intro b order hnd
  have h := buildOrdered_go b order [] hnd (fun i hi r hr => rfl)
  simpa [buildOrderedSections] using h

/-- Claim C1 witness: the ordering theorem instantiated at the populated
blocks with the duplicate-free request `[experience, skills]`. -/
theorem claim1_witness :
    buildOrderedSections blocksC1 ["experience", "skills"] =
      specOrderedSections blocksC1 ["experience", "skills"] :=
  claim1_section_ordering.1 blocksC1 ["experience", "skills"] (by decide)

end PureCV
